import Mathlib

/-!
Verification of the MongoDB manager client (React/fetch code) against its
design specification.  Each JavaScript handler that a claim refers to is
shallowly embedded as an executable Lean function; network calls are
represented by explicit request values and response parameters, React
`useState` setters by explicit state records (the committed value of a
state variable after an event handler is the argument of the last setter
call the handler queued for it).
-/

namespace MDBM

/-- Model of JavaScript `String.prototype.toLowerCase` restricted to the
ASCII file names the upload validator sees. -/
def jsToLower (s : String) : String :=
  ⟨s.data.map Char.toLower⟩

/-- Model of JavaScript `String.prototype.endsWith`. -/
def jsEndsWith (s post : String) : Bool :=
  post.data.isSuffixOf s.data

/-- Model of JavaScript `String.prototype.startsWith`. -/
def jsStartsWith (s pre : String) : Bool :=
  pre.data.isPrefixOf s.data

/-- Model of JavaScript `String.prototype.trim`: leading and trailing
whitespace stripped. -/
def jsTrim (s : String) : String :=
  ⟨((s.data.dropWhile Char.isWhitespace).reverse.dropWhile Char.isWhitespace).reverse⟩

/-- Boolean substring test, used to state facts about alert texts. -/
def strContains (s sub : String) : Bool :=
  (List.range (s.data.length + 1)).any (fun i => sub.data.isPrefixOf (s.data.drop i))

/-! ## CopyCollectionModal (src/client/src/components/CopyCollectionModal.js)

Only the `name` field of a database entry is consulted by the target
filter and the auto-select effect, so the summary record carries just
that field. -/

structure DatabaseSummary where
  name : String
deriving DecidableEq, Repr

namespace CopyModal

/-- Embedding of line 23: the selectable target list filters the source
database out of `allDatabases`. -/
def availableDatabases (allDatabases : List DatabaseSummary) (sourceDatabase : String) :
    List DatabaseSummary :=
  allDatabases.filter (fun db => db.name != sourceDatabase)

/-- Embedding of the auto-select effect (lines 39-43): when the modal is
open with a source collection, some database is available and no target
is chosen yet, the first available database becomes the target.  The
result is the argument passed to `setTargetDatabase`, `none` when the
effect does not fire. -/
def autoSelectedTarget (isOpen : Bool) (sourceCollection : String)
    (allDatabases : List DatabaseSummary) (sourceDatabase targetDatabase : String) :
    Option String :=
  if isOpen && sourceCollection != "" &&
      decide (0 < (availableDatabases allDatabases sourceDatabase).length) &&
      targetDatabase == "" then
    (availableDatabases allDatabases sourceDatabase).head?.map (fun db => db.name)
  else
    none

end CopyModal

/-! ## BackupManager (src/unnamed/part_000, first component): the two-store
backup list merge of `fetchBackups` and the two-store delete of
`handleDeleteBackup`. -/

/-- Per-name record of which stores hold a backup, as stored in
`backupSources`. -/
structure Presence where
  file_system : Bool
  database : Bool
deriving DecidableEq, Repr

/-- A backup entry as returned by the list endpoints.  The merge joins on
`name` alone; `created_at` is carried because the UI sorts on it. -/
structure Backup where
  name : String
  created_at : Nat
deriving DecidableEq, Repr

namespace BackupMgr

/-- The `backupSources` assignments made by the forEach over the
filesystem response (lines 43-45): every filesystem backup is marked
`file_system: true, database: false`. -/
def initialSources (fsBackups : List Backup) : String → Option Presence :=
  fun n => if fsBackups.any (fun b => b.name == n) then some ⟨true, false⟩ else none

/-- One iteration of the forEach over the database response (lines 57-67):
a name already present in `allBackups` is re-marked as present in both
stores; a new name is marked database-only and appended. -/
def mergeStep (acc : (String → Option Presence) × List Backup) (dbBackup : Backup) :
    (String → Option Presence) × List Backup :=
  if acc.2.any (fun b => b.name == dbBackup.name) then
    (fun n => if n == dbBackup.name then some ⟨true, true⟩ else acc.1 n, acc.2)
  else
    (fun n => if n == dbBackup.name then some ⟨false, true⟩ else acc.1 n,
     acc.2 ++ [dbBackup])

/-- The merge performed by `fetchBackups` (lines 36-67) given the decoded
backup lists of the two stores: the resulting `backupSources` map and the
merged `allBackups` list (before the by-date sort of line 75, which only
permutes the list). -/
def mergeBackups (fsBackups dbBackups : List Backup) :
    (String → Option Presence) × List Backup :=
  dbBackups.foldl mergeStep (initialSources fsBackups, fsBackups)

/-- Outcome of one of the two list calls, as the code distinguishes them:
a rejected fetch, a non-ok response, an ok response whose body lacks
`success`/`backups`, or a good response. -/
inductive ListOutcome where
  | netReject (message : String)
  | notOk
  | okBad
  | okGood (backups : List Backup)

/-- Everything `fetchBackups` does that is visible outside it. `newBackups`
and `newSources` are the arguments of `setBackups`/`setBackupSources`
(`none` when never called); `visibleError` is any alert or error state
shown to the user (the function has none, only `console.error` logs). -/
structure FetchBackupsResult where
  newBackups : Option (List Backup)
  newSources : Option (String → Option Presence)
  consoleLogs : List String
  visibleError : Option String
  databaseCallIssued : Bool

/-- Embedding of `fetchBackups` (lines 30-86).  A rejected filesystem call
hits the outer catch: the database call is never issued, nothing is
stored, and the failure is only logged.  A non-ok or bad filesystem
response silently contributes zero filesystem backups.  The database call
sits in its own try/catch, so any of its failures is logged or ignored
and contributes zero database backups. -/
def fetchBackups (fsOutcome dbOutcome : ListOutcome) : FetchBackupsResult :=
  match fsOutcome with
  | ListOutcome.netReject m =>
      { newBackups := none, newSources := none,
        consoleLogs := ["Failed to fetch backups: " ++ m],
        visibleError := none, databaseCallIssued := false }
  | ListOutcome.notOk => fetchBackupsAfterFs [] dbOutcome
  | ListOutcome.okBad => fetchBackupsAfterFs [] dbOutcome
  | ListOutcome.okGood l => fetchBackupsAfterFs l dbOutcome
where
  /-- Continuation after the filesystem response was decoded. -/
  fetchBackupsAfterFs (fsBackups : List Backup) (dbOutcome : ListOutcome) :
      FetchBackupsResult :=
    let dbPart : List String × List Backup :=
      match dbOutcome with
      | ListOutcome.netReject m => (["Failed to fetch database backups: " ++ m], [])
      | ListOutcome.notOk => ([], [])
      | ListOutcome.okBad => ([], [])
      | ListOutcome.okGood l => ([], l)
    let merged := mergeBackups fsBackups dbPart.2
    { newBackups := some merged.2, newSources := some merged.1,
      consoleLogs := dbPart.1, visibleError := none, databaseCallIssued := true }

/-- Response to one delete call: ok response, error response carrying a
message, or a rejected fetch. -/
inductive DeleteResponse where
  | ok (message : String)
  | httpError (message : String)
  | netReject (message : String)
deriving DecidableEq, Repr

/-- Body and endpoint of one delete call. -/
structure DeleteRequest where
  endpoint : String
  backup_name : String
  source : String
  confirm : Bool
deriving DecidableEq, Repr

/-- The filesystem-store delete call of lines 169-177. -/
def fileSystemDeleteRequest (backupName : String) : DeleteRequest :=
  { endpoint := "/api/backup/delete", backup_name := backupName,
    source := "file_system", confirm := true }

/-- The database-store delete call of lines 183-191. -/
def databaseDeleteRequest (backupName : String) : DeleteRequest :=
  { endpoint := "/api/backup/delete-database", backup_name := backupName,
    source := "database", confirm := true }

/-- The delete calls `handleDeleteBackup` issues (lines 163-193): nothing
without the `window.confirm` acceptance, otherwise one call per store
flagged in `backupSources` for this name, filesystem first. -/
def deleteRequests (userConfirms : Bool) (sources : Presence) (backupName : String) :
    List DeleteRequest :=
  if userConfirms then
    (if sources.file_system then [fileSystemDeleteRequest backupName] else []) ++
    (if sources.database then [databaseDeleteRequest backupName] else [])
  else []

/-- How the handler ends: declined confirmation, full success, the
aggregated partial-failure alert, or the catch branch after a rejected
call. -/
inductive DeleteOutcome where
  | noAction
  | success
  | partialFailure (messages : List String)
  | exception (message : String)
deriving DecidableEq, Repr

/-- First rejected response, in issue order: `Promise.all` rejects with
it. -/
def firstReject (rs : List DeleteResponse) : Option String :=
  rs.findSome? fun r =>
    match r with
    | DeleteResponse.netReject m => some m
    | _ => none

/-- Messages of the non-ok responses, in issue order (the loop of lines
202-212 collects `error.message` for every response with `ok` false). -/
def deleteErrorMessages (rs : List DeleteResponse) : List String :=
  rs.filterMap fun r =>
    match r with
    | DeleteResponse.httpError m => some m
    | _ => none

/-- True exactly for an ok response. -/
def isOkResponse (r : DeleteResponse) : Bool :=
  match r with
  | DeleteResponse.ok _ => true
  | _ => false

/-- Embedding of `handleDeleteBackup` (lines 147-226).  The second
component records whether `fetchBackups` was invoked again: it is in the
success branch (line 216) and the partial-failure branch (line 219), but
not in the catch branch (lines 222-224), which only alerts. -/
def handleDeleteBackup (userConfirms : Bool) (sources : Presence)
    (responses : DeleteRequest → DeleteResponse) (backupName : String) :
    DeleteOutcome × Bool :=
  if userConfirms then
    match firstReject ((deleteRequests true sources backupName).map responses) with
    | some m => (DeleteOutcome.exception m, false)
    | none =>
        if deleteErrorMessages ((deleteRequests true sources backupName).map responses)
            = [] then
          (DeleteOutcome.success, true)
        else
          (DeleteOutcome.partialFailure
            (deleteErrorMessages ((deleteRequests true sources backupName).map responses)),
           true)
  else (DeleteOutcome.noAction, false)

/-- The alert text shown for each outcome (lines 215, 218, 223). -/
def deleteAlertText : DeleteOutcome → Option String
  | DeleteOutcome.noAction => none
  | DeleteOutcome.success => some "Backup deleted successfully from all locations"
  | DeleteOutcome.partialFailure msgs =>
      some ("Delete partially failed: " ++ String.intercalate ", " msgs)
  | DeleteOutcome.exception m => some ("Delete failed: " ++ m)

end BackupMgr

/-! ## RestoreDatabase (src/client/src/features/confirmationModal.js, first
variant, lines 396-1036): file upload validation, restore validation, the
restore button's disabled predicate, and the post-success timers. -/

namespace RestoreModal

/-- The allow-list of line 419. -/
def allowedTypes : List String := [".zip", ".tar", ".gz", ".bson"]

/-- Embedding of lines 420-421: the lower-cased file name must end with
one of the allowed extensions. -/
def isValidType (fileName : String) : Bool :=
  allowedTypes.any (fun t => jsEndsWith (jsToLower fileName) t)

/-- What `processFile` does before and instead of any network traffic. -/
inductive UploadAction where
  | noFile
  | validationError (message : String)
  | uploadRequest (fileName : String)
deriving DecidableEq, Repr

/-- Embedding of `processFile` (lines 415-432) up to the point where the
upload request is issued: a missing file is ignored, an invalid extension
sets the error and returns before the fetch, otherwise the multipart
upload request is sent.  The identical copy at lines 1645-1656 is covered
by the same definition. -/
def processFile (file : Option String) : UploadAction :=
  match file with
  | Option.none => UploadAction.noFile
  | Option.some fileName =>
      if !isValidType fileName then
        UploadAction.validationError
          "Invalid file type. Please upload a .zip, .tar, .gz, or .bson file."
      else
        UploadAction.uploadRequest fileName

/-- Server-side handle of an uploaded backup, as far as the restore
validation consults it. -/
structure BackupInfo where
  database : String
  size : Nat
deriving DecidableEq, Repr

/-- The component state read by `handleRestore` and by the restore
button's `disabled` expression. -/
structure State where
  uploadedBackupInfo : Option BackupInfo
  uploadedBackupName : String
  connectionString : String
  targetDatabase : String
  newDatabaseName : String
  createNewDatabase : Bool
  isRestoring : Bool
  isUploadingFile : Bool
deriving DecidableEq, Repr

/-- Embedding of the restore button's `disabled` expression (lines
1008-1015). -/
def restoreDisabled (s : State) : Bool :=
  s.uploadedBackupInfo.isNone ||
  jsTrim s.connectionString == "" ||
  s.isRestoring ||
  s.isUploadingFile ||
  (s.createNewDatabase && jsTrim s.newDatabaseName == "") ||
  (!s.createNewDatabase && s.targetDatabase == "")

/-- Body of the restore call of lines 561-571. -/
structure RestorePayload where
  connection_string : String
  backup_name : String
  target_database : String
  confirm : Bool
deriving DecidableEq, Repr

/-- What `handleRestore` does up to the network call: one of the four
validation returns, or the restore request. -/
inductive RestoreAction where
  | validationError (message : String)
  | issueRestore (payload : RestorePayload)
deriving DecidableEq, Repr

/-- Embedding of the validation prefix of `handleRestore` (lines 535-580):
the four guard clauses in source order, then the payload construction
with `confirm: true` and the target taken from the new-name field or the
selector. -/
def handleRestore (s : State) : RestoreAction :=
  if s.uploadedBackupInfo.isNone || s.uploadedBackupName == "" then
    RestoreAction.validationError "Please upload a backup file first"
  else if jsTrim s.connectionString == "" then
    RestoreAction.validationError "Please provide a MongoDB connection string"
  else if s.createNewDatabase && jsTrim s.newDatabaseName == "" then
    RestoreAction.validationError "Please provide a new database name"
  else if !s.createNewDatabase && s.targetDatabase == "" then
    RestoreAction.validationError "Please select a target database"
  else
    RestoreAction.issueRestore
      { connection_string := s.connectionString,
        backup_name := s.uploadedBackupName,
        target_database :=
          if s.createNewDatabase then jsTrim s.newDatabaseName else s.targetDatabase,
        confirm := true }

/-- Result of the restore call as the code distinguishes it. -/
inductive RestoreCallResult where
  | netReject (message : String)
  | httpError (message : String)
  | okFail (message : String)
  | okSuccess
deriving DecidableEq, Repr

/-- Actions that the handlers hand to `setTimeout`. -/
inductive DelayedAction where
  | resetSession
  | refreshDatabases
deriving DecidableEq, Repr

/-- Embedding of the response phase of `handleRestore` (lines 582-608):
the error state set, whether `onRestoreComplete` runs (immediately, not
delayed), and the `setTimeout` registrations — on success `handleReset`
is scheduled with a 3000 ms delay, on any failure nothing is scheduled. -/
def handleRestoreResponse (result : RestoreCallResult) :
    Option String × Bool × List (Nat × DelayedAction) :=
  match result with
  | RestoreCallResult.okSuccess => (none, true, [(3000, DelayedAction.resetSession)])
  | RestoreCallResult.okFail m => (some m, false, [])
  | RestoreCallResult.httpError m => (some m, false, [])
  | RestoreCallResult.netReject m => (some m, false, [])

/-- Embedding of `handleReset` (lines 624-636): every transient
restore-session field is cleared; the connection string and the two
in-flight flags are not touched by it. -/
def handleReset (s : State) : State :=
  { uploadedBackupInfo := none,
    uploadedBackupName := "",
    connectionString := s.connectionString,
    targetDatabase := "",
    newDatabaseName := "",
    createNewDatabase := false,
    isRestoring := s.isRestoring,
    isUploadingFile := s.isUploadingFile }

end RestoreModal

/-! ## Restore (src/client/src/components/restore/Restore.js): the
upload-and-restore loop of `handleRestore` and its success block. -/

namespace RestoreJs

/-- The component state `handleRestore` reads before issuing requests. -/
structure Input where
  uploadedFiles : List String
  targetServerUrl : String
  targetDatabase : String
  createNewDatabase : Bool
deriving DecidableEq, Repr

/-- A request issued by the loop: the multipart upload (whose form data
carries the string field `confirm = "true"`, line 142) or the restore
call (whose JSON body carries `confirm: true`, line 175). -/
inductive Request where
  | upload (fileName : String) (confirmField : String)
  | restore (backupName : String) (confirm : Bool)
deriving DecidableEq, Repr

/-- Embedding of the request trace of `handleRestore` (lines 100-231).
The `userConfirmed` parameter models the user's answer to any
confirmation dialog in the flow; this handler contains none — it is bound
directly to the restore button's onClick (line 564) — so the parameter is
unused.  After the three validation guards, each file is uploaded and, if
its upload succeeds, restored under the server-assigned name. -/
def requestTrace (userConfirmed : Bool) (inp : Input)
    (uploadOk : String → Bool) (uploadName : String → String) : List Request :=
  if inp.uploadedFiles.isEmpty then []
  else if jsTrim inp.targetServerUrl == "" then []
  else if inp.createNewDatabase && jsTrim inp.targetDatabase == "" then []
  else
    (inp.uploadedFiles.map (fun f =>
      Request.upload f "true" ::
        (if uploadOk f then [Request.restore (uploadName f) true] else []))).flatten

/-- The confirm marker carried by a request: the string form field for
the upload, the boolean body field for the restore. -/
def requestConfirm (r : Request) : Bool :=
  match r with
  | Request.upload _ c => c == "true"
  | Request.restore _ c => c

/-- Embedding of the success block (lines 233-248): with at least one
successful per-file restore, the success message is set and, when the
`onRestoreSuccess` callback was supplied, the database-list refresh is
scheduled with a fixed 1500 ms delay; with none, only the error message
is set.  Components: success message, error message, scheduled timers. -/
def successEffects (restoredDatabases : List String) (hasOnRestoreSuccess : Bool) :
    Option String × Option String × List (Nat × RestoreModal.DelayedAction) :=
  if 0 < restoredDatabases.length then
    (some ("Successfully restored " ++ toString restoredDatabases.length ++
        " backup(s). Databases restored: " ++ String.intercalate ", " restoredDatabases),
     none,
     if hasOnRestoreSuccess then [(1500, RestoreModal.DelayedAction.refreshDatabases)]
     else [])
  else
    (none, some "No backups were successfully restored", [])

end RestoreJs

/-! ## Database browser (src/unnamed/part_001): the drop-collection flow,
which goes through the confirmation modal before `confirmDropCollection`
issues the request. -/

namespace Browser

/-- Body and endpoint of the drop call of lines 181-192. -/
structure DropRequest where
  endpoint : String
  connection_string : String
  database_name : String
  collection_names : List String
  confirm : Bool
deriving DecidableEq, Repr

/-- The request `confirmDropCollection` issues (lines 179-192), always
with `confirm: true`. -/
def confirmDropCollection (connectionString dbName collName : String) : DropRequest :=
  { endpoint := "/api/collection/drop",
    connection_string := connectionString,
    database_name := dbName,
    collection_names := [collName],
    confirm := true }

/-- The drop flow from the user's first click: `handleDropCollection`
(lines 170-177) only opens the confirmation modal whose `onConfirm` is
`confirmDropCollection`; the request is issued exactly when the user
accepts the modal. -/
def dropCollectionRequests (userConfirmed : Bool)
    (connectionString dbName collName : String) : List DropRequest :=
  if userConfirmed then [confirmDropCollection connectionString dbName collName]
  else []

end Browser

/-! ## BackUp (src/client/src/components/backup/BackUp.js): the
collections-view selection handlers.  A key has the form
`<database>.<collection>`; per the comment at line 27, only one database's
collections may be selected at a time. -/

namespace BackupSel

/-- The two selection state variables the handlers update.  The committed
value of each variable after a handler is the argument of the last setter
call the handler made for it, computed from the render-time values. -/
structure SelectionState where
  selectedDatabase : String
  selectedCollections : List String
deriving DecidableEq, Repr

/-- Embedding of `handleCollectionSelection` (lines 132-155).  The
database-switch branch (lines 134-136) queues `setSelectedCollections(new
Set())`, but `newSelected` (line 142) is built from the render-time
`selectedCollections`, and the unconditional `setSelectedCollections`
of line 154 is the last setter call, so the cleared set is overwritten:
the committed collection set is always derived from the old one. -/
def handleCollectionSelection (s : SelectionState)
    (databaseName collectionName : String) : SelectionState :=
  let dbAfterSwitch :=
    if s.selectedDatabase != "" && s.selectedDatabase != databaseName then databaseName
    else if s.selectedDatabase == "" then databaseName
    else s.selectedDatabase
  let collectionKey := databaseName ++ "." ++ collectionName
  if s.selectedCollections.contains collectionKey then
    let newSelected := s.selectedCollections.erase collectionKey
    { selectedDatabase := if newSelected.isEmpty then "" else dbAfterSwitch,
      selectedCollections := newSelected }
  else
    { selectedDatabase := dbAfterSwitch,
      selectedCollections := s.selectedCollections ++ [collectionKey] }

/-- Embedding of `handleSelectAllCollections` (lines 165-185) for the
database `databaseName` whose collection names are `collections`. -/
def handleSelectAllCollections (s : SelectionState)
    (databaseName : String) (collections : List String) : SelectionState :=
  let collectionKeys := collections.map (fun c => databaseName ++ "." ++ c)
  let allSelected := collectionKeys.all (fun k => s.selectedCollections.contains k)
  if allSelected then
    let newSelected := s.selectedCollections.filter (fun k => !collectionKeys.contains k)
    { selectedDatabase := if newSelected.isEmpty then "" else s.selectedDatabase,
      selectedCollections := newSelected }
  else
    { selectedDatabase := databaseName, selectedCollections := collectionKeys }

/-- The invariant claimed for the collections view: every selected key
belongs to the selected database, and the database is empty exactly when
the selection is. -/
def SelectionInvariant (s : SelectionState) : Prop :=
  (∀ k ∈ s.selectedCollections, jsStartsWith k (s.selectedDatabase ++ ".") = true) ∧
  (s.selectedDatabase = "" ↔ s.selectedCollections = [])

instance (s : SelectionState) : Decidable (SelectionInvariant s) := by
  unfold SelectionInvariant
  infer_instance

end BackupSel

/-! ## Theorems for the claims -/

/-- C3: the file extension is validated against the allow-list (.zip,
.tar, .gz, .bson, case-insensitively) before any network call.  Any file
failing the check is rejected with the validation error and no upload
request; `report.pdf` is rejected while `data.zip`, `archive.tar`,
`dump.gz` and `export.bson` (in any letter case) produce the upload
request. -/
theorem upload_allowlist_validation :
    (∀ f, RestoreModal.isValidType f = false →
        RestoreModal.processFile (some f) =
          RestoreModal.UploadAction.validationError
            "Invalid file type. Please upload a .zip, .tar, .gz, or .bson file.") ∧
    RestoreModal.processFile (some "report.pdf") =
      RestoreModal.UploadAction.validationError
        "Invalid file type. Please upload a .zip, .tar, .gz, or .bson file." ∧
    RestoreModal.processFile (some "data.zip") =
      RestoreModal.UploadAction.uploadRequest "data.zip" ∧
    RestoreModal.processFile (some "archive.tar") =
      RestoreModal.UploadAction.uploadRequest "archive.tar" ∧
    RestoreModal.processFile (some "dump.gz") =
      RestoreModal.UploadAction.uploadRequest "dump.gz" ∧
    RestoreModal.processFile (some "export.bson") =
      RestoreModal.UploadAction.uploadRequest "export.bson" ∧
    RestoreModal.processFile (some "EXPORT.BSON") =
      RestoreModal.UploadAction.uploadRequest "EXPORT.BSON" := by
  refine ⟨?_, by decide, by decide, by decide, by decide, by decide, by decide⟩
  intro f h
  simp [RestoreModal.processFile, h]

/-- Witness for C3: the universally quantified rejection clause applied
to the concrete disallowed file name `notes.txt`. -/
theorem upload_allowlist_validation_witness :
    RestoreModal.processFile (some "notes.txt") =
      RestoreModal.UploadAction.validationError
        "Invalid file type. Please upload a .zip, .tar, .gz, or .bson file." :=
  upload_allowlist_validation.1 "notes.txt" (by decide)

/-- Helper for C9: members of the filtered target list never carry the
source database's name. -/
theorem mem_availableDatabases_ne {dbs : List DatabaseSummary} {src : String}
    {db : DatabaseSummary} (h : db ∈ CopyModal.availableDatabases dbs src) :
    db.name ≠ src := by
  have := (List.mem_filter.mp h).2
  simpa using this

/-- C9: the selectable copy targets exclude the source database, and the
auto-selected default target is drawn from that filtered list, so its
name also differs from the source database's name. -/
theorem copy_target_excludes_source :
    (∀ (dbs : List DatabaseSummary) (src : String),
        ∀ db ∈ CopyModal.availableDatabases dbs src, db.name ≠ src) ∧
    (∀ (o : Bool) (sc : String) (dbs : List DatabaseSummary) (src tgt n : String),
        CopyModal.autoSelectedTarget o sc dbs src tgt = some n →
          n ≠ src ∧ n ∈ (CopyModal.availableDatabases dbs src).map DatabaseSummary.name) := by
  constructor
  · intro dbs src db h
    exact mem_availableDatabases_ne h
  · intro o sc dbs src tgt n h
    unfold CopyModal.autoSelectedTarget at h
    split at h
    · obtain ⟨db, hdb, rfl⟩ := Option.map_eq_some'.mp h
      have hmem : db ∈ CopyModal.availableDatabases dbs src := List.mem_of_mem_head? hdb
      exact ⟨mem_availableDatabases_ne hmem, List.mem_map_of_mem DatabaseSummary.name hmem⟩
    · exact absurd h (by simp)

/-- Witness for C9: with databases `sales` and `hr` and source `sales`,
the auto-selected target is `hr`, which differs from the source. -/
theorem copy_target_excludes_source_witness :
    ("hr" : String) ≠ "sales" ∧
      "hr" ∈ (CopyModal.availableDatabases [⟨"sales"⟩, ⟨"hr"⟩] "sales").map
        DatabaseSummary.name :=
  copy_target_excludes_source.2 true "users" [⟨"sales"⟩, ⟨"hr"⟩] "sales" "" "hr" (by decide)

/-- C6: whenever no target database is chosen (selector mode with an
empty selection, or create-new mode with a blank new name), the restore
button's disabled predicate is true and `handleRestore`, if invoked
anyway, returns a validation error without issuing the restore request;
by contraposition the target-validation branches are unreachable while
the button is enabled. -/
theorem restore_requires_target (s : RestoreModal.State)
    (h : (s.createNewDatabase = false ∧ s.targetDatabase = "") ∨
         (s.createNewDatabase = true ∧ jsTrim s.newDatabaseName = "")) :
    RestoreModal.restoreDisabled s = true ∧
    ∃ m, RestoreModal.handleRestore s = RestoreModal.RestoreAction.validationError m := by
  constructor
  · unfold RestoreModal.restoreDisabled
    rcases h with ⟨h1, h2⟩ | ⟨h1, h2⟩ <;> simp [h1, h2]
  · unfold RestoreModal.handleRestore
    split
    · exact ⟨_, rfl⟩
    split
    · exact ⟨_, rfl⟩
    split
    · exact ⟨_, rfl⟩
    split
    · exact ⟨_, rfl⟩
    · exfalso
      rename_i h1 h2 h3 h4
      rcases h with ⟨hc, ht⟩ | ⟨hc, hn⟩
      · exact h4 (by simp [hc, ht])
      · exact h3 (by simp [hc, hn])

/-- Witness for C6: a state with an uploaded backup, a connection string,
selector mode and no selected target is disabled and validation-rejected. -/
theorem restore_requires_target_witness :
    RestoreModal.restoreDisabled
        { uploadedBackupInfo := some ⟨"shop", 42⟩, uploadedBackupName := "b1",
          connectionString := "mongodb://localhost:27017", targetDatabase := "",
          newDatabaseName := "", createNewDatabase := false,
          isRestoring := false, isUploadingFile := false } = true ∧
    ∃ m, RestoreModal.handleRestore
        { uploadedBackupInfo := some ⟨"shop", 42⟩, uploadedBackupName := "b1",
          connectionString := "mongodb://localhost:27017", targetDatabase := "",
          newDatabaseName := "", createNewDatabase := false,
          isRestoring := false, isUploadingFile := false } =
      RestoreModal.RestoreAction.validationError m :=
  restore_requires_target _ (Or.inl ⟨rfl, rfl⟩)

/-- Helper: name-equality search in a backup list agrees with membership
in the projected name list. -/
theorem any_name_eq_true {l : List Backup} {n : String} :
    (l.any (fun b => b.name == n)) = true ↔ n ∈ l.map Backup.name := by
  simp [List.any_eq_true, List.mem_map]

/-- Helper for C1: folding the merge step never touches the presence
entry of a name outside the processed database list. -/
theorem foldl_mergeStep_src_stable (l : List Backup) :
    ∀ (acc : (String → Option Presence) × List Backup) (n : String),
      n ∉ l.map Backup.name → (l.foldl BackupMgr.mergeStep acc).1 n = acc.1 n := by
  induction l with
  | nil => intro acc n _; rfl
  | cons hd tl ih =>
      intro acc n hn
      rw [List.map_cons, List.mem_cons, not_or] at hn
      obtain ⟨hne, hn2⟩ := hn
      rw [List.foldl_cons, ih _ n hn2]
      unfold BackupMgr.mergeStep
      split <;> simp [hne]

/-- Helper for C1: for a name inside the (duplicate-free) database list,
the folded presence entry is both-stores when the name was already in
the accumulated list, and database-only otherwise. -/
theorem foldl_mergeStep_src_mem (l : List Backup) :
    ∀ (acc : (String → Option Presence) × List Backup),
      (l.map Backup.name).Nodup →
      ∀ b ∈ l, (l.foldl BackupMgr.mergeStep acc).1 b.name
        = some (if acc.2.any (fun x => x.name == b.name) then ⟨true, true⟩
            else ⟨false, true⟩) := by
  induction l with
  | nil => intro acc _ b hb; cases hb
  | cons hd tl ih =>
      intro acc hnd b hb
      rw [List.map_cons, List.nodup_cons] at hnd
      obtain ⟨hhd, hnd'⟩ := hnd
      rw [List.foldl_cons]
      rcases List.mem_cons.mp hb with rfl | hbtl
      · rw [foldl_mergeStep_src_stable tl _ b.name hhd]
        unfold BackupMgr.mergeStep
        split
        · rename_i hany
          simp [hany]
        · rename_i hany
          rw [Bool.not_eq_true] at hany
          simp [hany]
      · have hbn : hd.name ≠ b.name := by
          intro h
          exact hhd (h ▸ List.mem_map_of_mem Backup.name hbtl)
        rw [ih _ hnd' b hbtl]
        have h2 : (BackupMgr.mergeStep acc hd).2.any (fun x => x.name == b.name)
            = acc.2.any (fun x => x.name == b.name) := by
          unfold BackupMgr.mergeStep
          split
          · rfl
          · simp [List.any_append, beq_eq_false_iff_ne.mpr hbn]
        rw [h2]

/-- Helper for C1: the merge step when the name is already accumulated. -/
theorem mergeStep_pos {acc : (String → Option Presence) × List Backup} {hd : Backup}
    (h : (acc.2.any fun b => b.name == hd.name) = true) :
    BackupMgr.mergeStep acc hd
      = (fun n => if n == hd.name then some ⟨true, true⟩ else acc.1 n, acc.2) := by
  unfold BackupMgr.mergeStep
  rw [if_pos h]

/-- Helper for C1: the merge step when the name is new. -/
theorem mergeStep_neg {acc : (String → Option Presence) × List Backup} {hd : Backup}
    (h : (acc.2.any fun b => b.name == hd.name) = false) :
    BackupMgr.mergeStep acc hd
      = (fun n => if n == hd.name then some ⟨false, true⟩ else acc.1 n,
         acc.2 ++ [hd]) := by
  unfold BackupMgr.mergeStep
  rw [if_neg (by simp [h])]

/-- Helper for C1: the merged list is the accumulated list followed by
the database backups whose names are new to it, in order. -/
theorem foldl_mergeStep_list (l : List Backup) :
    ∀ (acc : (String → Option Presence) × List Backup),
      (l.map Backup.name).Nodup →
      (l.foldl BackupMgr.mergeStep acc).2
        = acc.2 ++ l.filter (fun b => !(acc.2.any (fun x => x.name == b.name))) := by
  induction l with
  | nil => intro acc _; simp
  | cons hd tl ih =>
      intro acc hnd
      rw [List.map_cons, List.nodup_cons] at hnd
      obtain ⟨hhd, hnd'⟩ := hnd
      rw [List.foldl_cons]
      by_cases hany : (acc.2.any fun b => b.name == hd.name) = true
      · rw [mergeStep_pos hany, ih _ hnd']
        rw [List.filter_cons]
        simp [hany]
      · rw [Bool.not_eq_true] at hany
        rw [mergeStep_neg hany, ih _ hnd']
        have hfc : tl.filter
            (fun b => !(((acc.2 ++ [hd]) : List Backup).any (fun x => x.name == b.name)))
            = tl.filter (fun b => !(acc.2.any (fun x => x.name == b.name))) := by
          apply List.filter_congr
          intro x hx
          have hxn : hd.name ≠ x.name := by
            intro h
            exact hhd (h ▸ List.mem_map_of_mem Backup.name hx)
          simp [List.any_append, beq_eq_false_iff_ne.mpr hxn]
        rw [List.filter_cons]
        simp only [hfc]
        simp [hany, List.append_assoc]

/-- C1: for duplicate-free store listings (backup names are unique per
store), the merge of `fetchBackups` marks filesystem-only names
`{file_system: true, database: false}`, database-only names
`{file_system: false, database: true}`, names in both stores
`{file_system: true, database: true}`, and every listed name occurs
exactly once in the merged backup list. -/
theorem list_merge_presence (fsL dbL : List Backup)
    (hfs : (fsL.map Backup.name).Nodup) (hdb : (dbL.map Backup.name).Nodup) :
    (∀ n, n ∈ fsL.map Backup.name → n ∉ dbL.map Backup.name →
        (BackupMgr.mergeBackups fsL dbL).1 n = some ⟨true, false⟩) ∧
    (∀ n, n ∉ fsL.map Backup.name → n ∈ dbL.map Backup.name →
        (BackupMgr.mergeBackups fsL dbL).1 n = some ⟨false, true⟩) ∧
    (∀ n, n ∈ fsL.map Backup.name → n ∈ dbL.map Backup.name →
        (BackupMgr.mergeBackups fsL dbL).1 n = some ⟨true, true⟩) ∧
    (∀ n, n ∈ fsL.map Backup.name ∨ n ∈ dbL.map Backup.name →
        (((BackupMgr.mergeBackups fsL dbL).2).map Backup.name).count n = 1) := by
  have hlist : (BackupMgr.mergeBackups fsL dbL).2
      = fsL ++ dbL.filter (fun b => !(fsL.any (fun x => x.name == b.name))) :=
    foldl_mergeStep_list dbL _ hdb
  refine ⟨?_, ?_, ?_, ?_⟩
  · intro n hfsn hdbn
    unfold BackupMgr.mergeBackups
    rw [foldl_mergeStep_src_stable dbL _ n hdbn]
    simp only [BackupMgr.initialSources]
    rw [if_pos (any_name_eq_true.mpr hfsn)]
  · intro n hfsn hdbn
    obtain ⟨b, hb, rfl⟩ := List.mem_map.mp hdbn
    have := foldl_mergeStep_src_mem dbL (BackupMgr.initialSources fsL, fsL) hdb b hb
    unfold BackupMgr.mergeBackups
    rw [this]
    have hany : (fsL.any (fun x => x.name == b.name)) = false := by
      rw [Bool.eq_false_iff]
      intro hc
      exact hfsn (any_name_eq_true.mp hc)
    rw [hany]
    rfl
  · intro n hfsn hdbn
    obtain ⟨b, hb, rfl⟩ := List.mem_map.mp hdbn
    have := foldl_mergeStep_src_mem dbL (BackupMgr.initialSources fsL, fsL) hdb b hb
    unfold BackupMgr.mergeBackups
    rw [this, if_pos (any_name_eq_true.mpr hfsn)]
  · intro n hn
    rw [hlist, List.map_append, List.count_append]
    by_cases hfsn : n ∈ fsL.map Backup.name
    · rw [List.count_eq_one_of_mem hfs hfsn]
      have hz : n ∉ (dbL.filter
          (fun b => !(fsL.any (fun x => x.name == b.name)))).map Backup.name := by
        intro hc
        obtain ⟨b, hb, rfl⟩ := List.mem_map.mp hc
        have hkeep := (List.mem_filter.mp hb).2
        rw [Bool.not_eq_true'] at hkeep
        exact absurd (any_name_eq_true.mpr hfsn) (by simp [hkeep])
      rw [List.count_eq_zero_of_not_mem hz]
    · have hdbn : n ∈ dbL.map Backup.name := hn.resolve_left hfsn
      rw [List.count_eq_zero_of_not_mem hfsn, Nat.zero_add]
      obtain ⟨b, hb, rfl⟩ := List.mem_map.mp hdbn
      have hkeep : (fun b => !(fsL.any (fun x => x.name == b.name))) b = true := by
        rw [Bool.not_eq_true']
        rw [Bool.eq_false_iff]
        intro hc
        exact hfsn (any_name_eq_true.mp hc)
      have hmemf : b ∈ dbL.filter (fun b => !(fsL.any (fun x => x.name == b.name))) :=
        List.mem_filter.mpr ⟨hb, hkeep⟩
      have hsub : List.Sublist
          ((dbL.filter (fun b => !(fsL.any (fun x => x.name == b.name)))).map Backup.name)
          (dbL.map Backup.name) :=
        (List.filter_sublist dbL).map Backup.name
      exact List.count_eq_one_of_mem (hdb.sublist hsub)
        (List.mem_map_of_mem Backup.name hmemf)

/-- Witness for C1: with filesystem backups `a`, `c` and database backups
`b`, `c`, the presence map reports the three combinations and each of the
three names occurs once in the merged list. -/
theorem list_merge_presence_witness :
    (BackupMgr.mergeBackups [⟨"a", 1⟩, ⟨"c", 3⟩] [⟨"b", 2⟩, ⟨"c", 4⟩]).1 "a"
        = some ⟨true, false⟩ ∧
    (BackupMgr.mergeBackups [⟨"a", 1⟩, ⟨"c", 3⟩] [⟨"b", 2⟩, ⟨"c", 4⟩]).1 "b"
        = some ⟨false, true⟩ ∧
    (BackupMgr.mergeBackups [⟨"a", 1⟩, ⟨"c", 3⟩] [⟨"b", 2⟩, ⟨"c", 4⟩]).1 "c"
        = some ⟨true, true⟩ ∧
    (((BackupMgr.mergeBackups [⟨"a", 1⟩, ⟨"c", 3⟩] [⟨"b", 2⟩, ⟨"c", 4⟩]).2).map
        Backup.name).count "c" = 1 :=
  ⟨(list_merge_presence [⟨"a", 1⟩, ⟨"c", 3⟩] [⟨"b", 2⟩, ⟨"c", 4⟩]
      (by decide) (by decide)).1 "a" (by decide) (by decide),
   (list_merge_presence [⟨"a", 1⟩, ⟨"c", 3⟩] [⟨"b", 2⟩, ⟨"c", 4⟩]
      (by decide) (by decide)).2.1 "b" (by decide) (by decide),
   (list_merge_presence [⟨"a", 1⟩, ⟨"c", 3⟩] [⟨"b", 2⟩, ⟨"c", 4⟩]
      (by decide) (by decide)).2.2.1 "c" (by decide) (by decide),
   (list_merge_presence [⟨"a", 1⟩, ⟨"c", 3⟩] [⟨"b", 2⟩, ⟨"c", 4⟩]
      (by decide) (by decide)).2.2.2 "c" (Or.inl (by decide))⟩

/-- Helper for C2: once no response is a rejection, the collected error
messages are empty exactly when every response is ok. -/
theorem deleteErrorMessages_eq_nil {rs : List BackupMgr.DeleteResponse}
    (hnr : BackupMgr.firstReject rs = none) :
    BackupMgr.deleteErrorMessages rs = [] ↔
      ∀ r ∈ rs, BackupMgr.isOkResponse r = true := by
  unfold BackupMgr.firstReject at hnr
  rw [List.findSome?_eq_none_iff] at hnr
  unfold BackupMgr.deleteErrorMessages
  rw [List.filterMap_eq_nil_iff]
  constructor
  · intro h r hr
    have h1 := h r hr
    have h2 := hnr r hr
    cases r <;> simp_all [BackupMgr.isOkResponse]
  · intro h r hr
    have h1 := h r hr
    cases r <;> simp_all [BackupMgr.isOkResponse]

/-- C2 (amended): with the confirmation accepted and no rejected call,
`handleDeleteBackup` issues exactly one delete call per store flagged in
the presence map and none for an unflagged store; it reports overall
success exactly when every issued call returned an ok response; and when
some issued call returned an error response it reports the partial
failure carrying the server-provided message of each failed call in
issue order (the alert does not itself add the store names). -/
theorem delete_per_store_calls (sources : Presence)
    (responses : BackupMgr.DeleteRequest → BackupMgr.DeleteResponse) (n : String)
    (hnr : BackupMgr.firstReject
        ((BackupMgr.deleteRequests true sources n).map responses) = none) :
    (BackupMgr.deleteRequests true sources n).count (BackupMgr.fileSystemDeleteRequest n)
        = (if sources.file_system then 1 else 0) ∧
    (BackupMgr.deleteRequests true sources n).count (BackupMgr.databaseDeleteRequest n)
        = (if sources.database then 1 else 0) ∧
    (∀ r ∈ BackupMgr.deleteRequests true sources n,
        r = BackupMgr.fileSystemDeleteRequest n ∨ r = BackupMgr.databaseDeleteRequest n) ∧
    ((BackupMgr.handleDeleteBackup true sources responses n).1
        = BackupMgr.DeleteOutcome.success ↔
      ∀ r ∈ BackupMgr.deleteRequests true sources n,
        BackupMgr.isOkResponse (responses r) = true) ∧
    (BackupMgr.deleteErrorMessages
        ((BackupMgr.deleteRequests true sources n).map responses) ≠ [] →
      (BackupMgr.handleDeleteBackup true sources responses n).1
        = BackupMgr.DeleteOutcome.partialFailure
            (BackupMgr.deleteErrorMessages
              ((BackupMgr.deleteRequests true sources n).map responses))) := by
  obtain ⟨fs, db⟩ := sources
  refine ⟨?_, ?_, ?_, ?_, ?_⟩
  · cases fs <;> cases db <;>
      simp [BackupMgr.deleteRequests, BackupMgr.fileSystemDeleteRequest,
        BackupMgr.databaseDeleteRequest]
  · cases fs <;> cases db <;>
      simp [BackupMgr.deleteRequests, BackupMgr.fileSystemDeleteRequest,
        BackupMgr.databaseDeleteRequest]
  · intro r hr
    cases fs <;> cases db <;> simp [BackupMgr.deleteRequests] at hr <;> tauto
  · unfold BackupMgr.handleDeleteBackup
    rw [if_pos rfl]
    split
    · rename_i m hm
      rw [hnr] at hm
      exact Option.noConfusion hm
    · by_cases he : BackupMgr.deleteErrorMessages
          ((BackupMgr.deleteRequests true ⟨fs, db⟩ n).map responses) = []
      · rw [if_pos he]
        constructor
        · intro _ r hr
          exact (deleteErrorMessages_eq_nil hnr).mp he (responses r)
            (List.mem_map_of_mem responses hr)
        · intro _
          rfl
      · rw [if_neg he]
        constructor
        · intro hs
          exact absurd hs (by simp)
        · intro hall
          exfalso
          apply he
          rw [deleteErrorMessages_eq_nil hnr]
          intro x hx
          obtain ⟨r, hr, rfl⟩ := List.mem_map.mp hx
          exact hall r hr
  · intro hne
    unfold BackupMgr.handleDeleteBackup
    rw [if_pos rfl]
    split
    · rename_i m hm
      rw [hnr] at hm
      exact Option.noConfusion hm
    · rw [if_neg hne]

/-- Witness for C2: with the backup present in both stores and both
delete calls answering ok, the outcome is the overall success. -/
theorem delete_per_store_calls_witness :
    (BackupMgr.handleDeleteBackup true ⟨true, true⟩
        (fun _ => BackupMgr.DeleteResponse.ok "deleted") "b1").1
      = BackupMgr.DeleteOutcome.success :=
  (delete_per_store_calls ⟨true, true⟩ (fun _ => BackupMgr.DeleteResponse.ok "deleted")
    "b1" (by decide)).2.2.2.1.mpr (by decide)

/-- Counterexample for C2 as stated: the backup sits in both stores, the
filesystem delete call fails with the server message `oops` and the
database call succeeds.  The partial-failure alert is exactly the string
`Delete partially failed: oops`, which names no store — neither
`file_system` nor any spelling of it occurs in the alert — so the claim
that the message names the failed store(s) fails. -/
theorem delete_partial_message_counterexample :
    (BackupMgr.handleDeleteBackup true ⟨true, true⟩
        (fun r => if r = BackupMgr.fileSystemDeleteRequest "b1"
          then BackupMgr.DeleteResponse.httpError "oops"
          else BackupMgr.DeleteResponse.ok "done") "b1").1
      = BackupMgr.DeleteOutcome.partialFailure ["oops"] ∧
    BackupMgr.deleteAlertText (BackupMgr.DeleteOutcome.partialFailure ["oops"])
      = some "Delete partially failed: oops" ∧
    strContains "Delete partially failed: oops" "file_system" = false ∧
    strContains "Delete partially failed: oops" "File System" = false ∧
    strContains "Delete partially failed: oops" "filesystem" = false := by
  exact ⟨by decide, by decide, by decide, by decide, by decide⟩

/-- C5 (amended): after the confirmation, the backup list refresh is
invoked exactly on the paths where no issued call rejected — the
all-success path and the error-response path — and not on the path where
some call rejects with a network error, which only alerts. -/
theorem delete_refresh_iff_no_reject (sources : Presence)
    (responses : BackupMgr.DeleteRequest → BackupMgr.DeleteResponse) (n : String) :
    (BackupMgr.handleDeleteBackup true sources responses n).2
      = (BackupMgr.firstReject
          ((BackupMgr.deleteRequests true sources n).map responses)).isNone := by
  unfold BackupMgr.handleDeleteBackup
  rw [if_pos rfl]
  split
  · rename_i m hm
    rw [hm]
    rfl
  · rename_i hm
    rw [hm]
    split <;> rfl

/-- Counterexample for C5 as stated: the backup is filesystem-only and
its single delete call rejects with a network error; the handler ends in
the catch branch with only the alert — the refresh flag is false, though
the claim lists the network-error path among those that refresh. -/
theorem delete_refresh_network_counterexample :
    BackupMgr.handleDeleteBackup true ⟨true, false⟩
        (fun _ => BackupMgr.DeleteResponse.netReject "network error") "b2"
      = (BackupMgr.DeleteOutcome.exception "network error", false) := by
  decide

/-- C4 (amended): a database-store failure of any kind (rejection, non-ok
response, bad body) is tolerated — the filesystem results are still
stored, a rejection is merely logged, and no visible error is shown.  A
filesystem-store rejection aborts the operation instead: the database
call is never issued and nothing is stored, but this failure too is only
logged to the console; no path of `fetchBackups` surfaces a visible
error. -/
theorem fetchBackups_failure_handling :
    (∀ fsList m, BackupMgr.fetchBackups (BackupMgr.ListOutcome.okGood fsList)
        (BackupMgr.ListOutcome.netReject m)
      = { newBackups := some fsList, newSources := some (BackupMgr.initialSources fsList),
          consoleLogs := ["Failed to fetch database backups: " ++ m],
          visibleError := none, databaseCallIssued := true }) ∧
    (∀ fsList, BackupMgr.fetchBackups (BackupMgr.ListOutcome.okGood fsList)
        BackupMgr.ListOutcome.notOk
      = { newBackups := some fsList, newSources := some (BackupMgr.initialSources fsList),
          consoleLogs := [], visibleError := none, databaseCallIssued := true }) ∧
    (∀ m dbOutcome, BackupMgr.fetchBackups (BackupMgr.ListOutcome.netReject m) dbOutcome
      = { newBackups := none, newSources := none,
          consoleLogs := ["Failed to fetch backups: " ++ m],
          visibleError := none, databaseCallIssued := false }) ∧
    (∀ fsOutcome dbOutcome,
        (BackupMgr.fetchBackups fsOutcome dbOutcome).visibleError = none) := by
  refine ⟨fun fsList m => rfl, fun fsList => rfl, fun m dbOutcome => rfl, ?_⟩
  intro fsOutcome dbOutcome
  cases fsOutcome <;> cases dbOutcome <;> rfl

/-- Counterexample for C4 as stated: when the filesystem list call
rejects, the failure is only written to the console log; no visible
error is surfaced (and the backup list is not updated), contradicting
the claim that a filesystem failure surfaces to the user as a visible
error. -/
theorem fetchBackups_fs_failure_counterexample :
    (BackupMgr.fetchBackups (BackupMgr.ListOutcome.netReject "ECONNREFUSED")
        (BackupMgr.ListOutcome.okGood [])).visibleError = none ∧
    (BackupMgr.fetchBackups (BackupMgr.ListOutcome.netReject "ECONNREFUSED")
        (BackupMgr.ListOutcome.okGood [])).newBackups = none ∧
    (BackupMgr.fetchBackups (BackupMgr.ListOutcome.netReject "ECONNREFUSED")
        (BackupMgr.ListOutcome.okGood [])).consoleLogs
      = ["Failed to fetch backups: ECONNREFUSED"] :=
  ⟨rfl, rfl, rfl⟩

/-- C7 (amended): after a successful restore, the Restore component
schedules the database-list refresh callback with a fixed 1500 ms delay
(not about 1000 ms), while the RestoreDatabase component schedules its
session reset with a fixed 3000 ms delay, and that reset clears the
uploaded handle and name, the target selection, the new-name field and
the create-new flag. -/
theorem restore_success_timers :
    (∀ (dbs : List String), 0 < dbs.length →
        (RestoreJs.successEffects dbs true).2.2
          = [(1500, RestoreModal.DelayedAction.refreshDatabases)]) ∧
    (RestoreModal.handleRestoreResponse RestoreModal.RestoreCallResult.okSuccess).2.2
      = [(3000, RestoreModal.DelayedAction.resetSession)] ∧
    (∀ s, (RestoreModal.handleReset s).uploadedBackupInfo = none ∧
        (RestoreModal.handleReset s).uploadedBackupName = "" ∧
        (RestoreModal.handleReset s).targetDatabase = "" ∧
        (RestoreModal.handleReset s).newDatabaseName = "" ∧
        (RestoreModal.handleReset s).createNewDatabase = false) := by
  refine ⟨?_, rfl, fun s => ⟨rfl, rfl, rfl, rfl, rfl⟩⟩
  intro dbs h
  unfold RestoreJs.successEffects
  rw [if_pos h]
  rfl

/-- Witness for C7: one successfully restored database schedules the
refresh at 1500 ms. -/
theorem restore_success_timers_witness :
    (RestoreJs.successEffects ["mydb"] true).2.2
      = [(1500, RestoreModal.DelayedAction.refreshDatabases)] :=
  restore_success_timers.1 ["mydb"] (by decide)

/-- Counterexample for C7 as stated: the delay of the scheduled refresh
after a successful restore is 1500 ms, which is neither equal to nor
within 1000 ms, so reading the claimed fixed delay of about 1 second as
1000 ms (or as at most 1000 ms) the claim fails. -/
theorem restore_refresh_delay_counterexample :
    (RestoreJs.successEffects ["mydb"] true).2.2
      = [(1500, RestoreModal.DelayedAction.refreshDatabases)] ∧
    ¬ (1500 : Nat) ≤ 1000 ∧ (1500 : Nat) ≠ 1000 := by
  exact ⟨by decide, by decide, by decide⟩

/-- C8 (amended): every destructive request — drop collection, delete
backup from either store, upload-for-restore and restore — carries the
confirm marker set to true; the drop and delete flows issue no request
unless the user accepts their confirmation dialog; the restore flow of
the Restore component, however, has no confirmation dialog at all (the
handler is the restore button's direct onClick), so its requests are not
gated on a confirmation. -/
theorem destructive_confirm_flag :
    (∀ (uc : Bool) (cs db coll : String),
        ∀ r ∈ Browser.dropCollectionRequests uc cs db coll, r.confirm = true) ∧
    (∀ (cs db coll : String), Browser.dropCollectionRequests false cs db coll = []) ∧
    (∀ (s : Presence) (n : String),
        ∀ r ∈ BackupMgr.deleteRequests true s n, r.confirm = true) ∧
    (∀ (s : Presence) (n : String), BackupMgr.deleteRequests false s n = []) ∧
    (∀ (uc : Bool) (inp : RestoreJs.Input) (uploadOk : String → Bool)
        (uploadName : String → String),
        ∀ r ∈ RestoreJs.requestTrace uc inp uploadOk uploadName,
          RestoreJs.requestConfirm r = true) := by
  refine ⟨?_, fun cs db coll => rfl, ?_, fun s n => rfl, ?_⟩
  · intro uc cs db coll r hr
    cases uc <;> simp [Browser.dropCollectionRequests] at hr
    subst hr
    rfl
  · intro s n r hr
    obtain ⟨fs, db⟩ := s
    cases fs <;> cases db <;>
      simp [BackupMgr.deleteRequests, BackupMgr.fileSystemDeleteRequest,
        BackupMgr.databaseDeleteRequest] at hr <;>
      rcases hr with rfl | rfl <;> rfl
  · intro uc inp uploadOk uploadName r hr
    unfold RestoreJs.requestTrace at hr
    split at hr
    · simp at hr
    split at hr
    · simp at hr
    split at hr
    · simp at hr
    · rw [List.mem_flatten] at hr
      obtain ⟨l, hl, hrl⟩ := hr
      rw [List.mem_map] at hl
      obtain ⟨f, hf, rfl⟩ := hl
      rcases List.mem_cons.mp hrl with rfl | hrest
      · rfl
      · split at hrest
        · rw [List.mem_singleton] at hrest
          subst hrest
          rfl
        · simp at hrest

/-- Witness for C8: the filesystem delete request for a both-store backup
carries confirm = true. -/
theorem destructive_confirm_flag_witness :
    (BackupMgr.fileSystemDeleteRequest "b3").confirm = true :=
  destructive_confirm_flag.2.2.1 ⟨true, false⟩ "b3"
    (BackupMgr.fileSystemDeleteRequest "b3") (by decide)

/-- Counterexample for C8 as stated: in the Restore component's flow the
user never accepts any confirmation dialog (the handler contains none —
userConfirmed is false), yet a single click issues the upload request and
the destructive restore request; so it is false that every destructive
request is only sent after an explicit client-side confirmation step. -/
theorem restore_no_confirmation_counterexample :
    RestoreJs.requestTrace false
        ⟨["data.zip"], "mongodb://localhost:27017", "", false⟩
        (fun _ => true) (fun f => f)
      = [RestoreJs.Request.upload "data.zip" "true",
         RestoreJs.Request.restore "data.zip" true] := by
  decide

/-- C10: evaluation of `handleCollectionSelection` at a state selecting
`A.x` in database `A` when the user then selects collection `y` of a
different database `B`.  The committed state keeps the stale key `A.x`
next to `B.y` under `selectedDatabase = "B"`, because the cleared set
queued by the database-switch branch is overwritten by the final setter
built from the render-time selection; the claimed single-database
invariant is violated, contradicting the handler's own comment that
selecting from a different database clears the previous selections. -/
theorem crossDatabase_selection_bug :
    BackupSel.handleCollectionSelection ⟨"A", ["A.x"]⟩ "B" "y"
      = ⟨"B", ["A.x", "B.y"]⟩ ∧
    ¬ BackupSel.SelectionInvariant
        (BackupSel.handleCollectionSelection ⟨"A", ["A.x"]⟩ "B" "y") := by
  constructor
  · decide
  · decide

end MDBM
